import Mathlib

/-!
Verification of the watch-party front end's core logic: the chat channel
adapter (JSON envelope encode/decode with legacy-plaintext fallback), the
layout selector (cinema / gallery / PiP / empty), track de-duplication,
the draggable PiP corner snapping, the send re-entrancy lock, the
connection-quality display, and the deterministic author-color hash.

The definitions below are shallow embeddings of the TypeScript source in
`src/lib/WatchPartyLayout.tsx`, `src/lib/useScreenShare.ts`,
`src/lib/ConnectionQuality.tsx` and the unnamed layout module. The
platform builtins `JSON.parse` / `JSON.stringify` used by the chat code
are modelled per their ECMA-404 / ECMA-262 semantics; JSON numbers are
kept as their lexemes (no claim inspects numeric values, and floating
point is out of scope).
-/

namespace WatchParty

/-- JSON value, as produced by `JSON.parse`. Numbers are kept as their
lexemes since no chat-adapter code path inspects a numeric value. -/
inductive Json where
  | null : Json
  | bool (b : Bool) : Json
  | num (lexeme : String) : Json
  | str (s : String) : Json
  | arr (elems : List Json) : Json
  | obj (fields : List (String × Json)) : Json

/-- JSON whitespace characters (ECMA-404: space, tab, line feed, carriage return). -/
def isJsonWs (c : Char) : Bool :=
  c = ' ' || c = '\t' || c = '\n' || c = '\r'

/-- Drop leading JSON whitespace. -/
def skipWs : List Char → List Char
  | [] => []
  | c :: cs => if isJsonWs c then skipWs cs else c :: cs

/-- Value of one hexadecimal digit, accepting both cases. -/
def hexVal? (c : Char) : Option Nat :=
  if '0' ≤ c ∧ c ≤ '9' then some (c.toNat - '0'.toNat)
  else if 'a' ≤ c ∧ c ≤ 'f' then some (c.toNat - 'a'.toNat + 10)
  else if 'A' ≤ c ∧ c ≤ 'F' then some (c.toNat - 'A'.toNat + 10)
  else none

/-- A UTF-16 code unit as a character: a lone surrogate (representable in a
JS string but not as a Unicode scalar value) is modelled as U+FFFD. -/
def loneOrChar (u : Nat) : Char :=
  if 0xD800 ≤ u ∧ u ≤ 0xDFFF then Char.ofNat 0xFFFD else Char.ofNat u

/-- Parse the body of a JSON string literal (after the opening quote),
returning the decoded characters and the input remaining after the
closing quote. Escapes follow ECMA-404; `\uXXXX` surrogate pairs are
combined, and a lone surrogate (representable in a JS string but not as
a Unicode scalar value) is modelled as U+FFFD. Each step consumes at
least one character, so fuel `length + 1` never runs out. -/
def parseStrAux : Nat → List Char → Option (List Char × List Char)
  | 0, _ => none
  | fuel + 1, cs =>
    match cs with
    | [] => none
    | c :: cs1 =>
      if c = '\"' then some ([], cs1)
      else if c = '\\' then
        match cs1 with
        | [] => none
        | e :: cs2 =>
          if e = '\"' then (parseStrAux fuel cs2).map (fun p => ('\"' :: p.1, p.2))
          else if e = '\\' then (parseStrAux fuel cs2).map (fun p => ('\\' :: p.1, p.2))
          else if e = '/' then (parseStrAux fuel cs2).map (fun p => ('/' :: p.1, p.2))
          else if e = 'b' then (parseStrAux fuel cs2).map (fun p => (Char.ofNat 8 :: p.1, p.2))
          else if e = 'f' then (parseStrAux fuel cs2).map (fun p => (Char.ofNat 12 :: p.1, p.2))
          else if e = 'n' then (parseStrAux fuel cs2).map (fun p => ('\n' :: p.1, p.2))
          else if e = 'r' then (parseStrAux fuel cs2).map (fun p => (Char.ofNat 13 :: p.1, p.2))
          else if e = 't' then (parseStrAux fuel cs2).map (fun p => ('\t' :: p.1, p.2))
          else if e = 'u' then
            match cs2 with
            | h1 :: h2 :: h3 :: h4 :: cs3 =>
              match hexVal? h1, hexVal? h2, hexVal? h3, hexVal? h4 with
              | some a, some b, some c2, some d =>
                let u := ((a * 16 + b) * 16 + c2) * 16 + d
                if 0xD800 ≤ u ∧ u ≤ 0xDBFF then
                  match cs3 with
                  | '\\' :: 'u' :: k1 :: k2 :: k3 :: k4 :: cs4 =>
                    match hexVal? k1, hexVal? k2, hexVal? k3, hexVal? k4 with
                    | some a2, some b2, some c3, some d2 =>
                      let u2 := ((a2 * 16 + b2) * 16 + c3) * 16 + d2
                      if 0xDC00 ≤ u2 ∧ u2 ≤ 0xDFFF then
                        (parseStrAux fuel cs4).map
                          (fun p => (Char.ofNat (0x10000 + (u - 0xD800) * 0x400 + (u2 - 0xDC00)) :: p.1, p.2))
                      else
                        (parseStrAux fuel cs4).map
                          (fun p => (Char.ofNat 0xFFFD :: loneOrChar u2 :: p.1, p.2))
                    | _, _, _, _ => none
                  | cs3' => (parseStrAux fuel cs3').map (fun p => (Char.ofNat 0xFFFD :: p.1, p.2))
                else
                  (parseStrAux fuel cs3).map (fun p => (loneOrChar u :: p.1, p.2))
              | _, _, _, _ => none
            | _ => none
          else none
      else if c.toNat < 0x20 then none
      else (parseStrAux fuel cs1).map (fun p => (c :: p.1, p.2))

/-- Longest prefix of decimal digits, with the remaining input. -/
def takeDigits : List Char → List Char × List Char
  | [] => ([], [])
  | c :: cs =>
    if c.isDigit then
      let p := takeDigits cs
      (c :: p.1, p.2)
    else ([], c :: cs)

/-- Parse the optional fraction part of a JSON number, returning its lexeme
characters (empty when absent). -/
def parseFrac (cs : List Char) : Option (List Char × List Char) :=
  match cs with
  | '.' :: rest =>
    match takeDigits rest with
    | ([], _) => none
    | (ds, rest2) => some ('.' :: ds, rest2)
  | _ => some ([], cs)

/-- Parse the optional exponent part of a JSON number, returning its lexeme
characters (empty when absent). -/
def parseExp (cs : List Char) : Option (List Char × List Char) :=
  match cs with
  | [] => some ([], [])
  | e :: rest =>
    if e = 'e' ∨ e = 'E' then
      let sgn : List Char × List Char :=
        match rest with
        | '+' :: r => (['+'], r)
        | '-' :: r => (['-'], r)
        | _ => ([], rest)
      match takeDigits sgn.2 with
      | ([], _) => none
      | (ds, rest3) => some (e :: (sgn.1 ++ ds), rest3)
    else some ([], e :: rest)

/-- Parse a JSON number (ECMA-404 grammar: optional minus, integer part with
no leading zero, optional fraction, optional exponent), returning its lexeme. -/
def parseNumber (cs : List Char) : Option (List Char × List Char) :=
  let sgn : List Char × List Char :=
    match cs with
    | '-' :: r => (['-'], r)
    | _ => ([], cs)
  match sgn.2 with
  | [] => none
  | c :: rest =>
    if c = '0' then
      match parseFrac rest with
      | none => none
      | some (fr, rest2) =>
        match parseExp rest2 with
        | none => none
        | some (ex, rest3) => some (sgn.1 ++ '0' :: (fr ++ ex), rest3)
    else if c.isDigit then
      let ds := takeDigits rest
      match parseFrac ds.2 with
      | none => none
      | some (fr, rest2) =>
        match parseExp rest2 with
        | none => none
        | some (ex, rest3) => some (sgn.1 ++ c :: (ds.1 ++ (fr ++ ex)), rest3)
    else none

/-- Parse the members of a JSON object after the opening brace (at least one
member; the empty object is handled by the caller). `pv` parses one value.
The fuel bounds the number of members. -/
def parseMembersF (pv : List Char → Option (Json × List Char)) :
    Nat → List Char → Option (List (String × Json) × List Char)
  | 0, _ => none
  | fuel + 1, cs =>
    match skipWs cs with
    | '\"' :: rest =>
      match parseStrAux (rest.length + 1) rest with
      | none => none
      | some (key, rest2) =>
        match skipWs rest2 with
        | ':' :: rest3 =>
          match pv rest3 with
          | none => none
          | some (v, rest4) =>
            match skipWs rest4 with
            | ',' :: rest5 =>
              (parseMembersF pv fuel rest5).map
                (fun p => ((String.mk key, v) :: p.1, p.2))
            | '\x7d' :: rest5 => some ([(String.mk key, v)], rest5)
            | _ => none
        | _ => none
    | _ => none

/-- Parse the elements of a JSON array after the opening bracket (at least
one element; the empty array is handled by the caller). -/
def parseElemsF (pv : List Char → Option (Json × List Char)) :
    Nat → List Char → Option (List Json × List Char)
  | 0, _ => none
  | fuel + 1, cs =>
    match pv cs with
    | none => none
    | some (v, rest) =>
      match skipWs rest with
      | ',' :: rest2 => (parseElemsF pv fuel rest2).map (fun p => (v :: p.1, p.2))
      | ']' :: rest2 => some ([v], rest2)
      | _ => none

/-- Parse one JSON value. The fuel bounds the nesting depth; member and
element lists are bounded by the remaining input length. -/
def parseValue : Nat → List Char → Option (Json × List Char)
  | 0, _ => none
  | fuel + 1, cs =>
    match skipWs cs with
    | [] => none
    | c :: rest =>
      if c = '\x7b' then
        match skipWs rest with
        | '\x7d' :: rest2 => some (Json.obj [], rest2)
        | rest2 =>
          (parseMembersF (parseValue fuel) (rest2.length + 1) rest2).map
            (fun p => (Json.obj p.1, p.2))
      else if c = '[' then
        match skipWs rest with
        | ']' :: rest2 => some (Json.arr [], rest2)
        | rest2 =>
          (parseElemsF (parseValue fuel) (rest2.length + 1) rest2).map
            (fun p => (Json.arr p.1, p.2))
      else if c = '\"' then
        (parseStrAux (rest.length + 1) rest).map (fun p => (Json.str (String.mk p.1), p.2))
      else if c = 't' then
        match rest with
        | 'r' :: 'u' :: 'e' :: rest2 => some (Json.bool true, rest2)
        | _ => none
      else if c = 'f' then
        match rest with
        | 'a' :: 'l' :: 's' :: 'e' :: rest2 => some (Json.bool false, rest2)
        | _ => none
      else if c = 'n' then
        match rest with
        | 'u' :: 'l' :: 'l' :: rest2 => some (Json.null, rest2)
        | _ => none
      else
        (parseNumber (c :: rest)).map (fun p => (Json.num (String.mk p.1), p.2))

/-- Model of `JSON.parse`: parse one value, require only trailing whitespace,
`none` models a thrown `SyntaxError`. The fuel `length + 1` dominates the
nesting depth, which consumes at least one character per level. -/
def jsonParse (s : String) : Option Json :=
  match parseValue (s.data.length + 1) s.data with
  | some (v, rest) =>
    match skipWs rest with
    | [] => some v
    | _ => none
  | none => none

/-- Lowercase hexadecimal digit for a value below 16. -/
def hexDigitChar (n : Nat) : Char :=
  if n < 10 then Char.ofNat ('0'.toNat + n) else Char.ofNat ('a'.toNat + n - 10)

/-- Escape one character per `JSON.stringify`'s QuoteJSONString: the short
escapes for quote, backslash, backspace, form feed, line feed, carriage
return and tab; `\u00XX` for other control characters; else the character
itself. -/
def escChar (c : Char) : List Char :=
  if c = '\"' then ['\\', '\"']
  else if c = '\\' then ['\\', '\\']
  else if c = Char.ofNat 8 then ['\\', 'b']
  else if c = Char.ofNat 12 then ['\\', 'f']
  else if c = '\n' then ['\\', 'n']
  else if c = Char.ofNat 13 then ['\\', 'r']
  else if c = '\t' then ['\\', 't']
  else if c.toNat < 0x20 then
    ['\\', 'u', '0', '0', hexDigitChar (c.toNat / 16), hexDigitChar (c.toNat % 16)]
  else [c]

/-- Escape a character list per `JSON.stringify`. -/
def escList : List Char → List Char
  | [] => []
  | c :: cs => escChar c ++ escList cs

/-- `JSON.stringify` of a string: a quoted, escaped string literal. -/
def quoteJson (s : String) : String :=
  String.mk ('\"' :: (escList s.data ++ ['\"']))

mutual

/-- Model of `JSON.stringify` on JSON values (object keys keep insertion
order, as in JS). -/
def jsonStringify : Json → String
  | Json.null => "null"
  | Json.bool true => "true"
  | Json.bool false => "false"
  | Json.num lexeme => lexeme
  | Json.str s => quoteJson s
  | Json.arr elems => "[" ++ stringifyElems elems ++ "]"
  | Json.obj fields => "\x7b" ++ stringifyFields fields ++ "\x7d"

/-- Comma-separated serialization of array elements. -/
def stringifyElems : List Json → String
  | [] => ""
  | [e] => jsonStringify e
  | e :: es => jsonStringify e ++ "," ++ stringifyElems es

/-- Comma-separated serialization of object members. -/
def stringifyFields : List (String × Json) → String
  | [] => ""
  | [(k, v)] => quoteJson k ++ ":" ++ jsonStringify v
  | (k, v) :: fs => quoteJson k ++ ":" ++ jsonStringify v ++ "," ++ stringifyFields fs

end

/-- Whether a JS object (field list) has an own property `k`
(the `k in parsed` test). -/
def hasKey (fields : List (String × Json)) (k : String) : Bool :=
  fields.any (fun f => f.1 == k)

/-- JS property read on an object field list: with duplicate keys the last
assignment wins, as in JS object construction. -/
def jsLookup (fields : List (String × Json)) (k : String) : Option Json :=
  (fields.reverse.find? (fun f => f.1 == k)).map (fun f => f.2)

/-- The guard `parsed && typeof parsed === 'object' && 'text' in parsed`:
`null` is falsy, only objects (and arrays) have typeof `object`, and an
array from `JSON.parse` never has a `text` property. -/
def isEnvelope : Json → Bool
  | Json.obj fields => hasKey fields "text"
  | _ => false

/-- Property read `v.text` under the envelope guard; the default is
unreachable because the guard checked the key is present. -/
def jsGetD (v : Json) (k : String) : Json :=
  match v with
  | Json.obj fields => (jsLookup fields k).getD Json.null
  | _ => Json.null

/-- The decode step of `CustomChatEntry` (WatchPartyLayout.tsx lines 68-76):
start from the fallback `\x7b text: entry.message \x7d`; if `JSON.parse`
succeeds and the guard holds, the parsed value becomes the content. Total
by construction — the catch block maps any parse failure to the fallback. -/
def decodeChat (raw : String) : Json :=
  match jsonParse raw with
  | some parsed =>
    if isEnvelope parsed then parsed else Json.obj [("text", Json.str raw)]
  | none => Json.obj [("text", Json.str raw)]

/-- The displayed message text `content.text` of a decoded chat entry. -/
def chatContentText (raw : String) : Json :=
  jsGetD (decodeChat raw) "text"

/-- The reply-snapshot text of `handleSendMessage` (lines 301-311): start
from the raw message string and replace it by `parsed.text` when the parse
succeeds and the envelope guard holds. -/
def replySnapshotText (msg : String) : Json :=
  match jsonParse msg with
  | some parsed => if isEnvelope parsed then jsGetD parsed "text" else Json.str msg
  | none => Json.str msg

/-- The sender of a received chat message (`entry.from` in the SDK's
`ReceivedChatMessage`): display name is optional, identity is a string. -/
structure ChatParticipant where
  name : Option String
  identity : String

/-- A received chat message as consumed by the layout: `msgFrom` models the
source's `from` field (`from` is a reserved word in Lean), absent for the
local echo. -/
structure ReceivedMsg where
  id : String
  message : String
  timestamp : Int
  msgFrom : Option ChatParticipant

/-- The reply reference of the outgoing envelope. Its `text` is a JSON
value because the source assigns `parsed.text` without checking that the
parsed property is a string. -/
structure ReplyRef where
  id : String
  sender : String
  text : Json

/-- The outgoing chat envelope (`ChatMessagePayload` in the source). -/
structure ChatMessagePayload where
  text : String
  replyTo : Option ReplyRef := none

/-- JS `a || b || c` over possibly-absent strings: `undefined` and the
empty string are falsy and fall through to the next alternative. -/
def firstTruthy : List (Option String) → String → String
  | [], d => d
  | none :: rest, d => firstTruthy rest d
  | some s :: rest, d => if s.isEmpty then firstTruthy rest d else s

/-- The ECMA-262 WhiteSpace and LineTerminator code points trimmed by
`String.prototype.trim`. -/
def jsIsSpace (c : Char) : Bool :=
  [0x9, 0xA, 0xB, 0xC, 0xD, 0x20, 0xA0, 0x1680, 0x2000, 0x2001, 0x2002,
   0x2003, 0x2004, 0x2005, 0x2006, 0x2007, 0x2008, 0x2009, 0x200A, 0x2028,
   0x2029, 0x202F, 0x205F, 0x3000, 0xFEFF].contains c.toNat

/-- Model of `String.prototype.trim`. -/
def jsTrim (s : String) : String :=
  String.mk (((s.data.dropWhile jsIsSpace).reverse.dropWhile jsIsSpace).reverse)

/-- The reply sender label `replyingTo.from?.name || replyingTo.from?.identity
|| 'Unknown'`. -/
def senderDisplay (m : ReceivedMsg) : String :=
  firstTruthy [m.msgFrom.bind ChatParticipant.name, m.msgFrom.map ChatParticipant.identity]
    "Unknown"

/-- The payload construction of `handleSendMessage` (lines 296-318): trimmed
input text, plus a reply snapshot when a reply target is set. -/
def buildPayload (chatInput : String) (replyingTo : Option ReceivedMsg) : ChatMessagePayload :=
  { text := jsTrim chatInput,
    replyTo := replyingTo.map fun r =>
      { id := r.id, sender := senderDisplay r, text := replySnapshotText r.message } }

/-- The JSON object `JSON.stringify(payload)` serializes: keys in insertion
order (`text` first, then `replyTo` when present; an absent optional field
is omitted, as `JSON.stringify` drops `undefined` properties). -/
def payloadJson (p : ChatMessagePayload) : Json :=
  Json.obj (("text", Json.str p.text) ::
    (match p.replyTo with
     | none => []
     | some r =>
       [("replyTo", Json.obj
          [("id", Json.str r.id), ("sender", Json.str r.sender), ("text", r.text)])]))

/-- The encode step of `handleSendMessage` (line 320): `JSON.stringify(payload)`. -/
def encodePayload (p : ChatMessagePayload) : String :=
  jsonStringify (payloadJson p)

/-! ### Round-trip lemmas: the parser inverts the serializer on chat envelopes -/

theorem hexVal_hexDigitChar {n : Nat} (h : n < 16) : hexVal? (hexDigitChar n) = some n := by
  interval_cases n <;> rfl

theorem escChar_length_pos (c : Char) : 1 ≤ (escChar c).length := by
  unfold escChar
  split_ifs <;> simp

theorem escList_length (l : List Char) : l.length ≤ (escList l).length := by
  induction l with
  | nil => simp [escList]
  | cons c cs ih =>
    have := escChar_length_pos c
    simp only [escList, List.length_cons, List.length_append]
    omega

theorem parseStrAux_unicode_low (n : Nat) (hn : n < 32) (fuel : Nat) (tail : List Char) :
    parseStrAux (fuel + 1) ('\\' :: 'u' :: '0' :: '0' ::
        hexDigitChar (n / 16) :: hexDigitChar (n % 16) :: tail)
      = (parseStrAux fuel tail).map (fun p => (Char.ofNat n :: p.1, p.2)) := by
  interval_cases n <;> rfl

theorem parseStrAux_escList (l rest : List Char) :
    ∀ fuel, l.length < fuel →
      parseStrAux fuel (escList l ++ '\"' :: rest) = some (l, rest) := by
  induction l with
  | nil =>
    intro fuel hf
    obtain ⟨f, rfl⟩ : ∃ f, fuel = f + 1 := ⟨fuel - 1, by omega⟩
    rfl
  | cons c cs ih =>
    intro fuel hf
    obtain ⟨f, rfl⟩ : ∃ f, fuel = f + 1 := ⟨fuel - 1, by omega⟩
    have hcs : cs.length < f := by
      simp only [List.length_cons] at hf; omega
    by_cases h1 : c = '\"'
    · subst h1
      show parseStrAux (f + 1) ('\\' :: '\"' :: (escList cs ++ '\"' :: rest)) = _
      have hstep : parseStrAux (f + 1) ('\\' :: '\"' :: (escList cs ++ '\"' :: rest))
          = (parseStrAux f (escList cs ++ '\"' :: rest)).map (fun p => ('\"' :: p.1, p.2)) := rfl
      rw [hstep, ih f hcs]; rfl
    by_cases h2 : c = '\\'
    · subst h2
      show parseStrAux (f + 1) ('\\' :: '\\' :: (escList cs ++ '\"' :: rest)) = _
      have hstep : parseStrAux (f + 1) ('\\' :: '\\' :: (escList cs ++ '\"' :: rest))
          = (parseStrAux f (escList cs ++ '\"' :: rest)).map (fun p => ('\\' :: p.1, p.2)) := rfl
      rw [hstep, ih f hcs]; rfl
    by_cases h3 : c = Char.ofNat 8
    · subst h3
      show parseStrAux (f + 1) ('\\' :: 'b' :: (escList cs ++ '\"' :: rest)) = _
      have hstep : parseStrAux (f + 1) ('\\' :: 'b' :: (escList cs ++ '\"' :: rest))
          = (parseStrAux f (escList cs ++ '\"' :: rest)).map
              (fun p => (Char.ofNat 8 :: p.1, p.2)) := rfl
      rw [hstep, ih f hcs]; rfl
    by_cases h4 : c = Char.ofNat 12
    · subst h4
      show parseStrAux (f + 1) ('\\' :: 'f' :: (escList cs ++ '\"' :: rest)) = _
      have hstep : parseStrAux (f + 1) ('\\' :: 'f' :: (escList cs ++ '\"' :: rest))
          = (parseStrAux f (escList cs ++ '\"' :: rest)).map
              (fun p => (Char.ofNat 12 :: p.1, p.2)) := rfl
      rw [hstep, ih f hcs]; rfl
    by_cases h5 : c = '\n'
    · subst h5
      show parseStrAux (f + 1) ('\\' :: 'n' :: (escList cs ++ '\"' :: rest)) = _
      have hstep : parseStrAux (f + 1) ('\\' :: 'n' :: (escList cs ++ '\"' :: rest))
          = (parseStrAux f (escList cs ++ '\"' :: rest)).map (fun p => ('\n' :: p.1, p.2)) := rfl
      rw [hstep, ih f hcs]; rfl
    by_cases h6 : c = Char.ofNat 13
    · subst h6
      show parseStrAux (f + 1) ('\\' :: 'r' :: (escList cs ++ '\"' :: rest)) = _
      have hstep : parseStrAux (f + 1) ('\\' :: 'r' :: (escList cs ++ '\"' :: rest))
          = (parseStrAux f (escList cs ++ '\"' :: rest)).map
              (fun p => (Char.ofNat 13 :: p.1, p.2)) := rfl
      rw [hstep, ih f hcs]; rfl
    by_cases h7 : c = '\t'
    · subst h7
      show parseStrAux (f + 1) ('\\' :: 't' :: (escList cs ++ '\"' :: rest)) = _
      have hstep : parseStrAux (f + 1) ('\\' :: 't' :: (escList cs ++ '\"' :: rest))
          = (parseStrAux f (escList cs ++ '\"' :: rest)).map (fun p => ('\t' :: p.1, p.2)) := rfl
      rw [hstep, ih f hcs]; rfl
    by_cases h8 : c.toNat < 0x20
    · have hesc : escChar c =
          ['\\', 'u', '0', '0', hexDigitChar (c.toNat / 16), hexDigitChar (c.toNat % 16)] := by
        simp [escChar, h1, h2, h3, h4, h5, h6, h7, h8]
      have hshape : escList (c :: cs) ++ '\"' :: rest
          = '\\' :: 'u' :: '0' :: '0' ::
              hexDigitChar (c.toNat / 16) :: hexDigitChar (c.toNat % 16) ::
              (escList cs ++ '\"' :: rest) := by
        rw [escList, hesc]; simp
      rw [hshape, parseStrAux_unicode_low c.toNat h8 f, ih f hcs]
      simp [Char.ofNat_toNat]
    · have hesc : escChar c = [c] := by
        simp [escChar, h1, h2, h3, h4, h5, h6, h7, h8]
      have hshape : escList (c :: cs) ++ '\"' :: rest
          = c :: (escList cs ++ '\"' :: rest) := by
        rw [escList, hesc]; simp
      rw [hshape]
      have hstep : parseStrAux (f + 1) (c :: (escList cs ++ '\"' :: rest))
          = (parseStrAux f (escList cs ++ '\"' :: rest)).map (fun p => (c :: p.1, p.2)) := by
        simp only [parseStrAux]
        rw [if_neg h1, if_neg h2, if_neg h8]
      rw [hstep, ih f hcs]; rfl

theorem parseValue_payload (f : Nat) (T : String) (rest : List Char) :
    parseValue (f + 2)
      ('\x7b' :: '\"' :: 't' :: 'e' :: 'x' :: 't' :: '\"' :: ':' :: '\"' ::
        (escList T.data ++ '\"' :: '\x7d' :: rest))
      = some (Json.obj [("text", Json.str T)], rest) := by
  have hval : parseValue (f + 1) ('\"' :: (escList T.data ++ '\"' :: '\x7d' :: rest))
      = some (Json.str T, '\x7d' :: rest) := by
    have h0 : parseValue (f + 1) ('\"' :: (escList T.data ++ '\"' :: '\x7d' :: rest))
        = (parseStrAux ((escList T.data ++ '\"' :: '\x7d' :: rest).length + 1)
            (escList T.data ++ '\"' :: '\x7d' :: rest)).map
            (fun p => (Json.str (String.mk p.1), p.2)) := rfl
    have hbound : T.data.length < (escList T.data ++ '\"' :: '\x7d' :: rest).length + 1 := by
      have := escList_length T.data
      simp only [List.length_append, List.length_cons]
      omega
    rw [h0, parseStrAux_escList T.data ('\x7d' :: rest) _ hbound]
    rfl
  have hkeyparse : ∀ (g : Nat) (Z : List Char),
      parseStrAux (g + 5) ('t' :: 'e' :: 'x' :: 't' :: '\"' :: Z)
        = some (['t', 'e', 'x', 't'], Z) := fun _ _ => rfl
  have hkey : String.mk ['t', 'e', 'x', 't'] = "text" := rfl
  have hw1 : skipWs ('\"' :: 't' :: 'e' :: 'x' :: 't' :: '\"' :: ':' :: '\"' ::
      (escList T.data ++ '\"' :: '\x7d' :: rest))
      = '\"' :: 't' :: 'e' :: 'x' :: 't' :: '\"' :: ':' :: '\"' ::
        (escList T.data ++ '\"' :: '\x7d' :: rest) := rfl
  have hw2 : skipWs (':' :: '\"' :: (escList T.data ++ '\"' :: '\x7d' :: rest))
      = ':' :: '\"' :: (escList T.data ++ '\"' :: '\x7d' :: rest) := rfl
  have hw3 : skipWs ('\x7d' :: rest) = '\x7d' :: rest := rfl
  have hmem : ∀ g : Nat, parseMembersF (parseValue (f + 1)) (g + 1)
      ('\"' :: 't' :: 'e' :: 'x' :: 't' :: '\"' :: ':' :: '\"' ::
        (escList T.data ++ '\"' :: '\x7d' :: rest))
      = some ([("text", Json.str T)], rest) := by
    intro g
    simp [parseMembersF, hw1, hkeyparse, hw2, hval, hw3, hkey]
  have htop : parseValue (f + 1 + 1)
      ('\x7b' :: '\"' :: 't' :: 'e' :: 'x' :: 't' :: '\"' :: ':' :: '\"' ::
        (escList T.data ++ '\"' :: '\x7d' :: rest))
      = (parseMembersF (parseValue (f + 1))
          (('\"' :: 't' :: 'e' :: 'x' :: 't' :: '\"' :: ':' :: '\"' ::
            (escList T.data ++ '\"' :: '\x7d' :: rest)).length + 1)
          ('\"' :: 't' :: 'e' :: 'x' :: 't' :: '\"' :: ':' :: '\"' ::
            (escList T.data ++ '\"' :: '\x7d' :: rest))).map
          (fun p => (Json.obj p.1, p.2)) := rfl
  show parseValue (f + 1 + 1) _ = _
  rw [htop]
  simp [hmem]

theorem encodePayload_data (T : String) :
    (encodePayload { text := T, replyTo := none }).data
      = '\x7b' :: '\"' :: 't' :: 'e' :: 'x' :: 't' :: '\"' :: ':' :: '\"' ::
          (escList T.data ++ '\"' :: '\x7d' :: []) := by
  have h1 : ("\x7b" : String).data = ['\x7b'] := rfl
  have h2 : ("\x7d" : String).data = ['\x7d'] := rfl
  have h3 : (":" : String).data = [':'] := rfl
  have h4 : escList ("text" : String).data = ['t', 'e', 'x', 't'] := rfl
  simp only [encodePayload, payloadJson, jsonStringify, stringifyFields, quoteJson,
    String.data_append, h1, h2, h3, h4]
  simp

theorem parseValue_payload_ge (T : String) (rest : List Char) (fuel : Nat) (hf : 2 ≤ fuel) :
    parseValue fuel
      ('\x7b' :: '\"' :: 't' :: 'e' :: 'x' :: 't' :: '\"' :: ':' :: '\"' ::
        (escList T.data ++ '\"' :: '\x7d' :: rest))
      = some (Json.obj [("text", Json.str T)], rest) := by
  obtain ⟨f, rfl⟩ : ∃ f, fuel = f + 2 := ⟨fuel - 2, by omega⟩
  exact parseValue_payload f T rest

theorem jsonParse_encodeNoReply (T : String) :
    jsonParse (encodePayload { text := T, replyTo := none })
      = some (Json.obj [("text", Json.str T)]) := by
  have hdata := encodePayload_data T
  unfold jsonParse
  rw [hdata]
  rw [parseValue_payload_ge T [] _ (by simp only [List.length_cons]; omega)]
  rfl

/-- **C3**: Round-trip — decoding the encoded envelope built from any
string `T` (the encode being `JSON.stringify` of `\x7b text: T \x7d`)
yields a chat message whose `text` field equals `T`. Proved for every
Lean string, which in particular covers every string containing no
control characters that break the serialization. -/
theorem encode_decode_roundtrip (T : String) :
    chatContentText (encodePayload { text := T, replyTo := none }) = Json.str T := by
  have hp := jsonParse_encodeNoReply T
  simp [chatContentText, decodeChat, hp, isEnvelope, hasKey, jsGetD, jsLookup]

/-- **C1**: The chat decode step is total — for every string input it
returns a chat-message object containing a `text` key. If `JSON.parse`
succeeds and the parsed value is a non-null object containing a `text`
property, that parsed value is the result; on any parse failure, or when
the parsed value is not such an object, the result is the fallback
`\x7b text: rawInput \x7d` with no `replyTo` (this covers the empty
string, plain text, and well-formed JSON of the wrong shape). -/
theorem decode_total_fallback (raw : String) :
    isEnvelope (decodeChat raw) = true
    ∧ (∀ v, jsonParse raw = some v → isEnvelope v = true → decodeChat raw = v)
    ∧ (jsonParse raw = none → decodeChat raw = Json.obj [("text", Json.str raw)])
    ∧ (∀ v, jsonParse raw = some v → isEnvelope v = false →
        decodeChat raw = Json.obj [("text", Json.str raw)]) := by
  refine ⟨?_, ?_, ?_, ?_⟩
  · cases h : jsonParse raw with
    | none => simp [decodeChat, h, isEnvelope, hasKey]
    | some v =>
      by_cases he : isEnvelope v = true
      · simp [decodeChat, h, he]
      · have hd : decodeChat raw = Json.obj [("text", Json.str raw)] := by
          simp [decodeChat, h, he]
        rw [hd]
        simp [isEnvelope, hasKey]
  · intro v hv he
    simp [decodeChat, hv, he]
  · intro h
    simp [decodeChat, h]
  · intro v hv he
    simp [decodeChat, hv, he]

/-- Witness for C1 at concrete inputs: a plain-text message falls back to
the envelope with the raw string as text. -/
theorem decode_total_fallback_witness :
    decodeChat "plain hello" = Json.obj [("text", Json.str "plain hello")] :=
  (decode_total_fallback "plain hello").2.2.1 rfl

/-- **C4**: Reply snapshots use the same total decode rule as display:
the snapshot text equals the decoded display text for every target
message; replying to a legacy plaintext message (parse failure or shape
mismatch) snapshots exactly that plaintext, and replying to an envelope
snapshots the envelope's `text` field; the outgoing envelope's
`replyTo.text` is exactly this snapshot. -/
theorem reply_snapshot_decode (msg : String) :
    replySnapshotText msg = chatContentText msg
    ∧ (jsonParse msg = none → replySnapshotText msg = Json.str msg)
    ∧ (∀ v, jsonParse msg = some v → isEnvelope v = false →
        replySnapshotText msg = Json.str msg)
    ∧ (∀ v, jsonParse msg = some v → isEnvelope v = true →
        replySnapshotText msg = jsGetD v "text")
    ∧ (∀ (input : String) (r : ReceivedMsg), r.message = msg →
        (buildPayload input (some r)).replyTo.map ReplyRef.text
          = some (replySnapshotText msg)) := by
  refine ⟨?_, ?_, ?_, ?_, ?_⟩
  · cases h : jsonParse msg with
    | none => simp [replySnapshotText, chatContentText, decodeChat, h, jsGetD, jsLookup]
    | some v =>
      by_cases he : isEnvelope v = true
      · simp [replySnapshotText, chatContentText, decodeChat, h, he]
      · simp [replySnapshotText, chatContentText, decodeChat, h, he, jsGetD, jsLookup]
  · intro h
    simp [replySnapshotText, h]
  · intro v hv he
    simp [replySnapshotText, hv, he]
  · intro v hv he
    simp [replySnapshotText, hv, he]
  · intro input r hr
    simp [buildPayload, hr]

/-- Witness for C4 at a concrete legacy message: replying to the plain
text "old style" snapshots exactly that string. -/
theorem reply_snapshot_decode_witness :
    replySnapshotText "old style" = Json.str "old style" :=
  (reply_snapshot_decode "old style").2.1 rfl

/-! ### Layout selector (useScreenShare + WatchPartyLayoutInner) -/

/-- The source kind of a track (`Track.Source` in livekit-client). -/
inductive TrackSource where
  | camera : TrackSource
  | microphone : TrackSource
  | screenShare : TrackSource
  | screenShareAudio : TrackSource
deriving DecidableEq

/-- A track reference from the session snapshot: the publishing
participant's identity and local flag, the source kind, and whether
`publication?.isSubscribed` is truthy. -/
structure TrackRef where
  identity : String
  isLocalParticipant : Bool
  source : TrackSource
  subscribed : Bool
deriving DecidableEq

/-- One reactive snapshot of the externally owned session state: the
published tracks and `useParticipants().length`. -/
structure RoomSnapshot where
  tracks : List TrackRef
  participantCount : Nat

/-- `useTracks([sources])`: the session's tracks filtered to the given
source kinds, in snapshot order. -/
def useTracksModel (s : RoomSnapshot) (srcs : List TrackSource) : List TrackRef :=
  s.tracks.filter (fun t => decide (t.source ∈ srcs))

/-- `useTracks([Track.Source.ScreenShare])`. -/
def screenShareTrackRefs (s : RoomSnapshot) : List TrackRef :=
  useTracksModel s [TrackSource.screenShare]

/-- `useTracks([Track.Source.Microphone])` — the hidden audio sink renders
exactly these tracks. -/
def micTrackRefs (s : RoomSnapshot) : List TrackRef :=
  useTracksModel s [TrackSource.microphone]

/-- `useTracks([Track.Source.Camera, Track.Source.Microphone])`. -/
def participantTracks (s : RoomSnapshot) : List TrackRef :=
  useTracksModel s [TrackSource.camera, TrackSource.microphone]

/-- `useScreenShare`'s `isScreenShareActive`: some screen-share track is
subscribed or published by the local participant (useScreenShare.ts
lines 39-53). -/
def isScreenShareActive (s : RoomSnapshot) : Bool :=
  ((screenShareTrackRefs s).find? (fun t => t.subscribed || t.isLocalParticipant)).isSome

/-- The track de-duplication filter (lines 392-402): keep camera tiles;
keep a microphone tile only when its participant has no camera track;
anything else is dropped. -/
def filteredParticipantTracks (s : RoomSnapshot) : List TrackRef :=
  (participantTracks s).filter fun track =>
    if track.source = TrackSource.camera then true
    else if track.source = TrackSource.microphone then
      ! ((participantTracks s).any fun t =>
          decide (t.identity = track.identity) && decide (t.source = TrackSource.camera))
    else false

/-- The mutually exclusive render modes of `WatchPartyLayoutInner`.
`galleryIdle` is the residual gallery state (no tiles, more than one
participant) in which neither the grid nor the camera-off placeholder
renders. -/
inductive RenderMode where
  | cinema : RenderMode
  | galleryPiP : RenderMode
  | galleryGrid : RenderMode
  | galleryEmpty : RenderMode
  | galleryIdle : RenderMode
deriving DecidableEq

/-- The render-mode decision of `WatchPartyLayoutInner` (line 406 and
lines 637-693): cinema when screen share is active and a screen-share
track is present; otherwise PiP for exactly two de-duplicated tracks,
grid for any other positive count, the camera-off placeholder for zero
tracks with one participant, and the idle gallery otherwise. -/
def renderMode (s : RoomSnapshot) : RenderMode :=
  if isScreenShareActive s && decide (0 < (screenShareTrackRefs s).length) then
    RenderMode.cinema
  else if 0 < (filteredParticipantTracks s).length then
    if (filteredParticipantTracks s).length = 2 then RenderMode.galleryPiP
    else RenderMode.galleryGrid
  else if s.participantCount = 1 then RenderMode.galleryEmpty
  else RenderMode.galleryIdle

/-- **C2**: The layout selector chooses exactly one mode (it is a total
function into `RenderMode`): screen-share active with a track present
gives Cinema regardless of track counts; otherwise zero de-duplicated
tracks with one participant gives Gallery-Empty, exactly two gives
Gallery-PiP, and one or three-or-more gives Gallery-Grid. -/
theorem layout_mode_selection (s : RoomSnapshot) :
    (isScreenShareActive s = true → 0 < (screenShareTrackRefs s).length →
      renderMode s = RenderMode.cinema)
    ∧ (isScreenShareActive s = false ∨ (screenShareTrackRefs s).length = 0 →
        ((filteredParticipantTracks s).length = 0 → s.participantCount = 1 →
          renderMode s = RenderMode.galleryEmpty)
        ∧ ((filteredParticipantTracks s).length = 2 →
          renderMode s = RenderMode.galleryPiP)
        ∧ ((filteredParticipantTracks s).length = 1 ∨
            3 ≤ (filteredParticipantTracks s).length →
          renderMode s = RenderMode.galleryGrid)) := by
  constructor
  · intro ha hl
    simp [renderMode, ha, hl]
  · intro hno
    have hcin : (isScreenShareActive s && decide (0 < (screenShareTrackRefs s).length)) = false := by
      rcases hno with h | h <;> simp [h]
    refine ⟨?_, ?_, ?_⟩
    · intro h0 h1
      simp [renderMode, hcin, h0, h1]
    · intro h2
      simp [renderMode, hcin, h2]
    · intro h13
      have hpos : 0 < (filteredParticipantTracks s).length := by omega
      have hne : ¬ (filteredParticipantTracks s).length = 2 := by omega
      simp [renderMode, hcin, hpos, hne]

/-- Witness for C2: an empty room snapshot with a single participant
renders the Gallery-Empty placeholder. -/
theorem layout_mode_selection_witness :
    renderMode { tracks := [], participantCount := 1 } = RenderMode.galleryEmpty :=
  ((layout_mode_selection { tracks := [], participantCount := 1 }).2 (Or.inl rfl)).1 rfl rfl

theorem participantTracks_source (s : RoomSnapshot) :
    ∀ t ∈ participantTracks s,
      t.source = TrackSource.camera ∨ t.source = TrackSource.microphone := by
  intro t ht
  have h := (List.mem_filter.mp ht).2
  simpa using h

/-- **C5**: Track de-duplication — for a participant whose snapshot holds
one camera track and one microphone track, the filtered tile set holds
exactly one tile for that participant, every filtered tile of that
participant is the camera tile, and the hidden audio sink
(`micTrackRefs`) still holds a microphone track of that participant, so
audio playback is never dropped by tile filtering. The track snapshot is
keyed per (identity, source) as in the data model, hence the one-each
hypotheses. -/
theorem track_dedup_single_tile (s : RoomSnapshot) (p : String)
    (hcam : ((participantTracks s).filter fun t =>
        decide (t.identity = p) && decide (t.source = TrackSource.camera)).length = 1)
    (hmic : ((participantTracks s).filter fun t =>
        decide (t.identity = p) && decide (t.source = TrackSource.microphone)).length = 1) :
    ((filteredParticipantTracks s).filter fun t => decide (t.identity = p)).length = 1
    ∧ (∀ t ∈ filteredParticipantTracks s, t.identity = p → t.source = TrackSource.camera)
    ∧ (∃ t ∈ micTrackRefs s, t.identity = p) := by
  have hasCam : ((participantTracks s).any fun t =>
      decide (t.identity = p) && decide (t.source = TrackSource.camera)) = true := by
    have hpos : 0 < ((participantTracks s).filter fun t =>
        decide (t.identity = p) && decide (t.source = TrackSource.camera)).length := by omega
    obtain ⟨a, ha⟩ := List.exists_mem_of_length_pos hpos
    have h2 := List.mem_filter.mp ha
    exact List.any_eq_true.mpr ⟨a, h2.1, h2.2⟩
  refine ⟨?_, ?_, ?_⟩
  · have hff : ((filteredParticipantTracks s).filter fun t => decide (t.identity = p))
        = (participantTracks s).filter fun t =>
            decide (t.identity = p) && decide (t.source = TrackSource.camera) := by
      unfold filteredParticipantTracks
      rw [List.filter_filter]
      apply List.filter_congr
      intro t ht
      by_cases hid : t.identity = p
      · rcases participantTracks_source s t ht with hsc | hsm
        · simp [hid, hsc]
        · simp [hid, hsm, hasCam]
      · simp [hid]
    rw [hff]
    exact hcam
  · intro t ht hid
    simp only [filteredParticipantTracks] at ht
    have h2 := List.mem_filter.mp ht
    rcases participantTracks_source s t h2.1 with hsc | hsm
    · exact hsc
    · exfalso
      have hpred := h2.2
      simp [hsm, hid, hasCam] at hpred
  · have hpos : 0 < ((participantTracks s).filter fun t =>
        decide (t.identity = p) && decide (t.source = TrackSource.microphone)).length := by omega
    obtain ⟨a, ha⟩ := List.exists_mem_of_length_pos hpos
    have h2 := List.mem_filter.mp ha
    have h3 : a.identity = p ∧ a.source = TrackSource.microphone := by
      have := h2.2
      simpa using this
    have hmem : a ∈ s.tracks := (List.mem_filter.mp h2.1).1
    refine ⟨a, ?_, h3.1⟩
    simp [micTrackRefs, useTracksModel, List.mem_filter, hmem, h3.2]

/-- Witness for C5: a participant with a camera and a microphone track
gets exactly one tile and keeps a microphone track in the audio sink. -/
theorem track_dedup_single_tile_witness :
    ((filteredParticipantTracks
        { tracks := [{ identity := "alice", isLocalParticipant := true,
                       source := TrackSource.camera, subscribed := true },
                     { identity := "alice", isLocalParticipant := true,
                       source := TrackSource.microphone, subscribed := true }],
          participantCount := 1 }).filter fun t => decide (t.identity = "alice")).length = 1
    ∧ ∃ t ∈ micTrackRefs
        { tracks := [{ identity := "alice", isLocalParticipant := true,
                       source := TrackSource.camera, subscribed := true },
                     { identity := "alice", isLocalParticipant := true,
                       source := TrackSource.microphone, subscribed := true }],
          participantCount := 1 }, t.identity = "alice" :=
  ⟨(track_dedup_single_tile _ "alice" (by decide) (by decide)).1,
   (track_dedup_single_tile _ "alice" (by decide) (by decide)).2.2⟩

/-! ### Draggable PiP overlay (DraggablePiP, lines 54-121) -/

/-- The four snap corners of the PiP overlay. -/
inductive Corner where
  | tl : Corner
  | tr : Corner
  | bl : Corner
  | br : Corner
deriving DecidableEq

/-- The mutable refs of `DraggablePiP`: drag-in-progress flag, pointer-down
position, past-threshold flag, and the CSS translate offset. Coordinates
are rationals (JS numbers on integer-pixel inputs stay exact). -/
structure PiPDragState where
  isDragging : Bool
  startX : ℚ
  startY : ℚ
  hasMoved : Bool
  transformX : ℚ
  transformY : ℚ
deriving DecidableEq

/-- The refs as initialized on mount. -/
def initialDragState : PiPDragState :=
  { isDragging := false, startX := 0, startY := 0, hasMoved := false,
    transformX := 0, transformY := 0 }

/-- The overlay's bounding client rect at pointer release. -/
structure Rect where
  left : ℚ
  top : ℚ
  width : ℚ
  height : ℚ

/-- `handlePointerDown` (lines 60-65): begin a drag at the pointer position. -/
def handlePointerDown (s : PiPDragState) (x y : ℚ) : PiPDragState :=
  { s with isDragging := true, startX := x, startY := y, hasMoved := false }

/-- `handlePointerMove` (lines 67-76): ignore when not dragging; otherwise
mark the 5-pixel threshold as crossed when either axis exceeds it, and
translate the overlay by the offset from the start position. -/
def handlePointerMove (s : PiPDragState) (x y : ℚ) : PiPDragState :=
  if s.isDragging = false then s
  else
    let dx := x - s.startX
    let dy := y - s.startY
    { s with hasMoved := if 5 < |dx| ∨ 5 < |dy| then true else s.hasMoved,
             transformX := dx, transformY := dy }

/-- The corner pick of `handlePointerUp` (lines 98-103): the screen
quadrant containing the overlay's center point. -/
def quadrantCorner (centerX centerY winW winH : ℚ) : Corner :=
  let isLeft := centerX < winW / 2
  let isTop := centerY < winH / 2
  if isTop then (if isLeft then Corner.tl else Corner.tr)
  else (if isLeft then Corner.bl else Corner.br)

/-- `handlePointerUp` (lines 78-108): ignore when not dragging; a
below-threshold release is a click (reset the translate, keep the
corner); past the threshold, snap to the quadrant containing the
overlay's center at release. -/
def handlePointerUp (s : PiPDragState) (corner : Corner) (rect : Rect) (winW winH : ℚ) :
    PiPDragState × Corner :=
  if s.isDragging = false then (s, corner)
  else
    let s1 := { s with isDragging := false }
    if s.hasMoved = false then
      ({ s1 with transformX := 0, transformY := 0 }, corner)
    else
      let centerX := rect.left + rect.width / 2
      let centerY := rect.top + rect.height / 2
      ({ s1 with transformX := 0, transformY := 0 },
        quadrantCorner centerX centerY winW winH)

/-- Replay a list of pointer-move positions. -/
def runMoves (s : PiPDragState) (moves : List (ℚ × ℚ)) : PiPDragState :=
  moves.foldl (fun st m => handlePointerMove st m.1 m.2) s

/-- A full drag gesture: pointer down at `start`, the given moves, then
release with the overlay's rect and the window size; result is the new
`pipCorner`. -/
def runGesture (corner : Corner) (start : ℚ × ℚ) (moves : List (ℚ × ℚ))
    (rect : Rect) (winW winH : ℚ) : Corner :=
  (handlePointerUp (runMoves (handlePointerDown initialDragState start.1 start.2) moves)
    corner rect winW winH).2

theorem handlePointerMove_preserve (s : PiPDragState) (x y : ℚ) :
    (handlePointerMove s x y).isDragging = s.isDragging
    ∧ (handlePointerMove s x y).startX = s.startX
    ∧ (handlePointerMove s x y).startY = s.startY := by
  unfold handlePointerMove
  split_ifs <;> simp

theorem runMoves_preserve (moves : List (ℚ × ℚ)) :
    ∀ s : PiPDragState,
      (runMoves s moves).isDragging = s.isDragging
      ∧ (runMoves s moves).startX = s.startX
      ∧ (runMoves s moves).startY = s.startY := by
  induction moves with
  | nil => intro s; simp [runMoves]
  | cons m ms ih =>
    intro s
    have hstep := handlePointerMove_preserve s m.1 m.2
    have h := ih (handlePointerMove s m.1 m.2)
    simp only [runMoves, List.foldl_cons] at h ⊢
    exact ⟨h.1.trans hstep.1, (h.2.1.trans hstep.2.1), (h.2.2.trans hstep.2.2)⟩

theorem runMoves_hasMoved_mono (moves : List (ℚ × ℚ)) :
    ∀ s : PiPDragState, s.hasMoved = true → (runMoves s moves).hasMoved = true := by
  induction moves with
  | nil => intro s h; simpa [runMoves] using h
  | cons m ms ih =>
    intro s h
    simp only [runMoves, List.foldl_cons]
    apply ih
    unfold handlePointerMove
    split_ifs <;> simp [h]

theorem runMoves_small (sx sy : ℚ) (moves : List (ℚ × ℚ)) :
    ∀ s : PiPDragState,
      (∀ m ∈ moves, |m.1 - sx| < 5 ∧ |m.2 - sy| < 5) →
      s.startX = sx → s.startY = sy → s.hasMoved = false →
      (runMoves s moves).hasMoved = false := by
  induction moves with
  | nil => intro s _ _ _ h; simpa [runMoves] using h
  | cons m ms ih =>
    intro s hsmall hx hy hm
    simp only [runMoves, List.foldl_cons]
    have hpre := handlePointerMove_preserve s m.1 m.2
    have hstep : (handlePointerMove s m.1 m.2).hasMoved = false := by
      rcases hsmall m (List.mem_cons_self m ms) with ⟨h1, h2⟩
      unfold handlePointerMove
      by_cases hd : s.isDragging = false
      · rw [if_pos hd]; exact hm
      · rw [if_neg hd]
        show (if (5 < |m.1 - s.startX| ∨ 5 < |m.2 - s.startY|) then true else s.hasMoved)
          = false
        have hnot : ¬ (5 < |m.1 - s.startX| ∨ 5 < |m.2 - s.startY|) := by
          rw [hx, hy]
          push_neg
          exact ⟨le_of_lt h1, le_of_lt h2⟩
        rw [if_neg hnot]
        exact hm
    exact ih (handlePointerMove s m.1 m.2)
      (fun m' hm' => hsmall m' (List.mem_cons_of_mem m hm'))
      (hpre.2.1.trans hx) (hpre.2.2.trans hy) hstep

theorem handlePointerMove_sets (s : PiPDragState) (x y : ℚ)
    (hdrag : s.isDragging = true) (hb : 5 < |x - s.startX| ∨ 5 < |y - s.startY|) :
    (handlePointerMove s x y).hasMoved = true := by
  unfold handlePointerMove
  rw [if_neg (by rw [hdrag]; simp)]
  show (if (5 < |x - s.startX| ∨ 5 < |y - s.startY|) then true else s.hasMoved) = true
  rw [if_pos hb]

theorem runMoves_big (sx sy : ℚ) (moves : List (ℚ × ℚ)) (s : PiPDragState)
    (hdrag : s.isDragging = true) (hx : s.startX = sx) (hy : s.startY = sy)
    (hbig : ∃ m ∈ moves, 5 < |m.1 - sx| ∨ 5 < |m.2 - sy|) :
    (runMoves s moves).hasMoved = true := by
  obtain ⟨m, hmem, hm⟩ := hbig
  obtain ⟨pre, post, rfl⟩ := List.append_of_mem hmem
  have hpre := runMoves_preserve pre s
  have hdrag1 : (runMoves s pre).isDragging = true := hpre.1.trans hdrag
  have hxx : (runMoves s pre).startX = sx := hpre.2.1.trans hx
  have hyy : (runMoves s pre).startY = sy := hpre.2.2.trans hy
  have hstep : (handlePointerMove (runMoves s pre) m.1 m.2).hasMoved = true := by
    apply handlePointerMove_sets _ _ _ hdrag1
    rw [hxx, hyy]
    exact hm
  have hsplit : runMoves s (pre ++ m :: post)
      = runMoves (handlePointerMove (runMoves s pre) m.1 m.2) post := by
    simp [runMoves, List.foldl_append]
  rw [hsplit]
  exact runMoves_hasMoved_mono post _ hstep

/-- **C6**: Releasing the PiP after a drag in which every pointer position
stayed under 5 pixels from the start on both axes leaves `pipCorner`
unchanged (the gesture is a click); once any movement crossed the
5-pixel threshold, releasing snaps `pipCorner` to the screen quadrant
containing the overlay's center at release — in particular a center in
the top-left quadrant yields `tl` regardless of the prior corner. -/
theorem pip_drag_release (corner : Corner) (start : ℚ × ℚ) (moves : List (ℚ × ℚ))
    (rect : Rect) (winW winH : ℚ) :
    ((∀ m ∈ moves, |m.1 - start.1| < 5 ∧ |m.2 - start.2| < 5) →
      runGesture corner start moves rect winW winH = corner)
    ∧ ((∃ m ∈ moves, 5 < |m.1 - start.1| ∨ 5 < |m.2 - start.2|) →
      runGesture corner start moves rect winW winH
        = quadrantCorner (rect.left + rect.width / 2) (rect.top + rect.height / 2) winW winH)
    ∧ ((∃ m ∈ moves, 5 < |m.1 - start.1| ∨ 5 < |m.2 - start.2|) →
        rect.left + rect.width / 2 < winW / 2 → rect.top + rect.height / 2 < winH / 2 →
        runGesture corner start moves rect winW winH = Corner.tl) := by
  have hdown : (handlePointerDown initialDragState start.1 start.2)
      = { isDragging := true, startX := start.1, startY := start.2, hasMoved := false,
          transformX := 0, transformY := 0 } := rfl
  have hpre := runMoves_preserve moves (handlePointerDown initialDragState start.1 start.2)
  have hdrag : (runMoves (handlePointerDown initialDragState start.1 start.2) moves).isDragging
      = true := by rw [hpre.1, hdown]
  have hsnap : (∃ m ∈ moves, 5 < |m.1 - start.1| ∨ 5 < |m.2 - start.2|) →
      runGesture corner start moves rect winW winH
        = quadrantCorner (rect.left + rect.width / 2) (rect.top + rect.height / 2)
            winW winH := by
    intro hbig
    have hmoved : (runMoves (handlePointerDown initialDragState start.1 start.2) moves).hasMoved
        = true := by
      apply runMoves_big start.1 start.2 moves _ _ _ _ hbig
      · rw [hdown]
      · rw [hdown]
      · rw [hdown]
    unfold runGesture handlePointerUp
    rw [if_neg (by rw [hdrag]; simp), if_neg (by rw [hmoved]; simp)]
  refine ⟨?_, hsnap, ?_⟩
  · intro hsmall
    have hmoved : (runMoves (handlePointerDown initialDragState start.1 start.2) moves).hasMoved
        = false := by
      apply runMoves_small start.1 start.2 moves _ hsmall <;> rw [hdown]
    unfold runGesture handlePointerUp
    rw [if_neg (by rw [hdrag]; simp), if_pos hmoved]
  · intro hbig hleft htop
    rw [hsnap hbig]
    unfold quadrantCorner
    rw [if_pos htop, if_pos hleft]

/-- Witness for C6: a 10-pixel drag with the overlay centered in the
top-left quadrant snaps the corner from bottom-right to top-left. -/
theorem pip_drag_release_witness :
    runGesture Corner.br (0, 0) [((10 : ℚ), (0 : ℚ))]
      { left := 0, top := 0, width := 10, height := 10 } 100 100 = Corner.tl :=
  (pip_drag_release Corner.br (0, 0) [(10, 0)]
      { left := 0, top := 0, width := 10, height := 10 } 100 100).2.2
    ⟨(10, 0), by simp, Or.inl (by norm_num)⟩ (by norm_num) (by norm_num)

/-! ### Send re-entrancy lock (useChat's isSending flag) -/

/-- Modelled from the spec: the `useChat` hook's `isSending` flag and the
send lifecycle live in the SDK, not under src/. Per the spec, the flag is
set while a send initiated by `handleSendMessage` is pending and cleared
as soon as that promise settles; `outstanding` counts this adapter
instance's pending sends. -/
structure AdapterState where
  isSending : Bool
  outstanding : Nat
deriving DecidableEq

/-- The adapter state on mount: not sending, nothing outstanding. -/
def initialAdapterState : AdapterState :=
  { isSending := false, outstanding := 0 }

/-- Adapter events: a send attempt (`hasText` is the truthiness of
`chatInput.trim()`), or the pending promise settling (resolve or reject). -/
inductive AdapterEvent where
  | attemptSend (hasText : Bool) : AdapterEvent
  | settle : AdapterEvent

/-- Modelled from the spec: one adapter step. The attempt guard
transcribes `if (chatInput.trim() && !isSending)` (line 295, with the
send button also disabled at line 784); a settle clears the flag and
retires the pending send. -/
def adapterStep (s : AdapterState) : AdapterEvent → AdapterState
  | AdapterEvent.attemptSend hasText =>
    if hasText && !s.isSending then
      { isSending := true, outstanding := s.outstanding + 1 }
    else s
  | AdapterEvent.settle =>
    if s.isSending then { isSending := false, outstanding := s.outstanding - 1 } else s

/-- Run the adapter from its initial state over an event trace. -/
def runAdapter (events : List AdapterEvent) : AdapterState :=
  events.foldl adapterStep initialAdapterState

theorem adapterStep_invariant (s : AdapterState) (e : AdapterEvent)
    (h : s.outstanding = if s.isSending then 1 else 0) :
    (adapterStep s e).outstanding = if (adapterStep s e).isSending then 1 else 0 := by
  cases e with
  | attemptSend ht =>
    by_cases hg : (ht && !s.isSending) = true
    · have hg' := hg
      simp only [Bool.and_eq_true, Bool.not_eq_true'] at hg'
      rw [hg'.2] at h
      simp only [Bool.false_eq_true, if_false] at h
      simp [adapterStep, hg, h]
    · simpa [adapterStep, hg] using h
  | settle =>
    by_cases hg : s.isSending = true
    · rw [hg] at h
      simp only [if_true] at h
      simp [adapterStep, hg, h]
    · simpa [adapterStep, hg] using h

theorem runAdapter_outstanding (events : List AdapterEvent) :
    (runAdapter events).outstanding = if (runAdapter events).isSending then 1 else 0 := by
  suffices h : ∀ s : AdapterState, s.outstanding = (if s.isSending then 1 else 0) →
      (events.foldl adapterStep s).outstanding
        = if (events.foldl adapterStep s).isSending then 1 else 0 from
    h initialAdapterState rfl
  induction events with
  | nil => intro s h; simpa using h
  | cons e es ih =>
    intro s h
    simp only [List.foldl_cons]
    exact ih _ (adapterStep_invariant s e h)

/-- **C7**: Re-entrancy lock on send — in every reachable adapter state at
most one send is outstanding; a send attempt while `isSending` is set is
a no-op; and after the pending promise settles the flag is cleared, so
sending is re-enabled. -/
theorem send_reentrancy_lock (events : List AdapterEvent) :
    (runAdapter events).outstanding ≤ 1
    ∧ (∀ s : AdapterState, ∀ ht : Bool, s.isSending = true →
        adapterStep s (AdapterEvent.attemptSend ht) = s)
    ∧ (∀ s : AdapterState, (adapterStep s AdapterEvent.settle).isSending = false) := by
  refine ⟨?_, ?_, ?_⟩
  · have h := runAdapter_outstanding events
    rw [h]
    split <;> simp
  · intro s ht hs
    simp [adapterStep, hs]
  · intro s
    by_cases hs : s.isSending = true
    · simp [adapterStep, hs]
    · simp only [Bool.not_eq_true] at hs
      simp [adapterStep, hs]

/-- Witness for C7: after two send attempts and one settle at most one
send was ever outstanding, and a concrete locked state ignores a new
attempt. -/
theorem send_reentrancy_lock_witness :
    (runAdapter [AdapterEvent.attemptSend true, AdapterEvent.attemptSend true,
      AdapterEvent.settle]).outstanding ≤ 1
    ∧ adapterStep { isSending := true, outstanding := 1 } (AdapterEvent.attemptSend true)
        = { isSending := true, outstanding := 1 } :=
  ⟨(send_reentrancy_lock [AdapterEvent.attemptSend true, AdapterEvent.attemptSend true,
      AdapterEvent.settle]).1,
   (send_reentrancy_lock []).2.1 { isSending := true, outstanding := 1 } true rfl⟩

/-! ### Connection quality display (ConnectionQuality.tsx) -/

/-- The livekit connection-quality signal of the local participant;
`unknown` also stands for the not-yet-connected default. -/
inductive LKQuality where
  | excellent : LKQuality
  | good : LKQuality
  | poor : LKQuality
  | lost : LKQuality
  | unknown : LKQuality
deriving DecidableEq

/-- The livekit transport connection state. -/
inductive ConnState where
  | disconnected : ConnState
  | connecting : ConnState
  | connected : ConnState
  | reconnecting : ConnState
deriving DecidableEq

/-- The label/color/bars record of `getQualityInfo`. -/
structure QualityInfo where
  label : String
  color : String
  bars : Nat
deriving DecidableEq

/-- `getQualityInfo` (ConnectionQuality.tsx lines 26-39); the default
switch case covers `Unknown`. -/
def getQualityInfo : LKQuality → QualityInfo
  | LKQuality.excellent => { label := "Excellent", color := "#22c55e", bars := 4 }
  | LKQuality.good => { label := "Good", color := "#22c55e", bars := 3 }
  | LKQuality.poor => { label := "Poor", color := "#eab308", bars := 2 }
  | LKQuality.lost => { label := "Disconnected", color := "#ef4444", bars := 0 }
  | LKQuality.unknown => { label := "Connecting...", color := "#6b7280", bars := 1 }

/-- `getConnectionStateLabel` (lines 41-54): nothing when connected. -/
def getConnectionStateLabel : ConnState → Option String
  | ConnState.connected => none
  | ConnState.connecting => some "Connecting..."
  | ConnState.reconnecting => some "Reconnecting..."
  | ConnState.disconnected => some "Disconnected"

/-- What the component renders: the transport banner, or the signal bars
with quality color and optional label. -/
inductive QualityDisplay where
  | transportBanner (label : String) : QualityDisplay
  | bars (count : Nat) (color : String) (label : Option String) : QualityDisplay
deriving DecidableEq

/-- The render decision (lines 56-111): a non-null transport label is
shown prominently instead of the quality bars. -/
def renderConnectionQuality (q : LKQuality) (st : ConnState) (showLabel : Bool) :
    QualityDisplay :=
  match getConnectionStateLabel st with
  | some l => QualityDisplay.transportBanner l
  | none =>
    QualityDisplay.bars (getQualityInfo q).bars (getQualityInfo q).color
      (if showLabel then some (getQualityInfo q).label else none)

/-- **C8**: The indicator maps each quality level to a bar count in 0-4
with an associated color (Excellent 4, Good 3, Poor 2, Lost 0,
Unknown/Connecting 1), and whenever the transport state is not Connected
the transport-state label is shown with priority instead of the bars. -/
theorem connection_quality_display (q : LKQuality) (st : ConnState) (showLabel : Bool) :
    (getQualityInfo q).bars ≤ 4
    ∧ (getQualityInfo LKQuality.excellent).bars = 4
    ∧ (getQualityInfo LKQuality.good).bars = 3
    ∧ (getQualityInfo LKQuality.poor).bars = 2
    ∧ (getQualityInfo LKQuality.lost).bars = 0
    ∧ (getQualityInfo LKQuality.unknown).bars = 1
    ∧ (st ≠ ConnState.connected → ∃ l, getConnectionStateLabel st = some l ∧
        renderConnectionQuality q st showLabel = QualityDisplay.transportBanner l)
    ∧ (st = ConnState.connected → renderConnectionQuality q st showLabel
        = QualityDisplay.bars (getQualityInfo q).bars (getQualityInfo q).color
            (if showLabel then some (getQualityInfo q).label else none)) := by
  refine ⟨?_, rfl, rfl, rfl, rfl, rfl, ?_, ?_⟩
  · cases q <;> simp [getQualityInfo]
  · intro h
    cases st with
    | connected => exact absurd rfl h
    | connecting => exact ⟨_, rfl, rfl⟩
    | reconnecting => exact ⟨_, rfl, rfl⟩
    | disconnected => exact ⟨_, rfl, rfl⟩
  · intro h
    subst h
    rfl

/-- Witness for C8: while reconnecting, the transport banner replaces the
bars even though the quality level is Poor. -/
theorem connection_quality_display_witness :
    ∃ l, getConnectionStateLabel ConnState.reconnecting = some l ∧
      renderConnectionQuality LKQuality.poor ConnState.reconnecting true
        = QualityDisplay.transportBanner l :=
  (connection_quality_display LKQuality.poor ConnState.reconnecting true).2.2.2.2.2.2.1
    (by decide)

/-! ### Author colors (getUserColor, CustomChatEntry) -/

/-- The fixed nine-color palette (lines 27-37). -/
def USER_COLORS : List String :=
  ["#f87171", "#fb923c", "#fbbf24", "#a3e635", "#34d399",
   "#22d3ee", "#818cf8", "#e879f9", "#fb7185"]

/-- JS `ToInt32`: reduce modulo 2^32 into the signed 32-bit range. -/
def toInt32 (n : Int) : Int :=
  let m := n % 4294967296
  if m < 2147483648 then m else m - 4294967296

/-- The UTF-16 code units of a character, as iterated by `charCodeAt`. -/
def utf16Units (c : Char) : List Nat :=
  if c.toNat < 0x10000 then [c.toNat]
  else [0xD800 + (c.toNat - 0x10000) / 0x400, 0xDC00 + (c.toNat - 0x10000) % 0x400]

/-- One loop iteration of `getUserColor`'s hash:
`hash = id.charCodeAt(i) + ((hash << 5) - hash)`, where `<<` truncates to
32 bits and the outer sums are exact float arithmetic on integers. -/
def hashStep (h : Int) (code : Nat) : Int :=
  code + (toInt32 (toInt32 h * 32) - h)

/-- The accumulated hash of `getUserColor` (lines 40-43). -/
def strHash (s : String) : Int :=
  (s.data.flatMap utf16Units).foldl hashStep 0

/-- `getUserColor` (lines 39-45): index the palette by
`Math.abs(hash) % USER_COLORS.length` (out of range would give JS
`undefined`; the index is always in range). -/
def getUserColor (id : String) : String :=
  USER_COLORS.getD ((strHash id).natAbs % USER_COLORS.length) ""

/-- The author key of `CustomChatEntry` (line 184):
`entry.from?.name || entry.from?.identity || 'Me'`. -/
def displayNameOf (e : ReceivedMsg) : String :=
  firstTruthy [e.msgFrom.bind ChatParticipant.name, e.msgFrom.map ChatParticipant.identity]
    "Me"

/-- The author color of `CustomChatEntry` (lines 172 and 185): local
messages (`!entry.from`) get no palette color. -/
def authorColorOf (e : ReceivedMsg) : Option String :=
  if e.msgFrom.isNone then none else some (getUserColor (displayNameOf e))

/-- **C9**: Author-color determinism — the color function is a pure
function into the fixed nine-color palette for every seed string
including the empty one (so equal inputs always give equal outputs);
two remote messages with the same display key get the same color; and
messages from the local participant are never color-keyed. -/
theorem author_color_deterministic :
    (∀ s : String, getUserColor s ∈ USER_COLORS)
    ∧ (∀ e1 e2 : ReceivedMsg, e1.msgFrom.isSome → e2.msgFrom.isSome →
        displayNameOf e1 = displayNameOf e2 → authorColorOf e1 = authorColorOf e2)
    ∧ (∀ e : ReceivedMsg, e.msgFrom = none → authorColorOf e = none) := by
  refine ⟨?_, ?_, ?_⟩
  · intro s
    unfold getUserColor
    have h9 : (strHash s).natAbs % USER_COLORS.length < 9 := by
      have hlen : USER_COLORS.length = 9 := rfl
      rw [hlen]
      exact Nat.mod_lt _ (by norm_num)
    generalize (strHash s).natAbs % USER_COLORS.length = i at h9
    interval_cases i <;> decide
  · intro e1 e2 h1 h2 hname
    obtain ⟨a, ha⟩ := Option.isSome_iff_exists.mp h1
    obtain ⟨b, hb⟩ := Option.isSome_iff_exists.mp h2
    unfold authorColorOf
    rw [ha, hb, hname]
    rfl
  · intro e he
    unfold authorColorOf
    rw [he]
    rfl

/-- Witness for C9: the empty seed still picks a palette color, and a
local message gets none. -/
theorem author_color_deterministic_witness :
    getUserColor "" ∈ USER_COLORS
    ∧ authorColorOf { id := "1", message := "m", timestamp := 0, msgFrom := none } = none :=
  ⟨author_color_deterministic.1 "",
   author_color_deterministic.2.2 { id := "1", message := "m", timestamp := 0, msgFrom := none }
     rfl⟩

/-! ### Send atomicity (handleSendMessage) -/

/-- The resolution of the channel's `send` promise. -/
inductive SendOutcome where
  | success : SendOutcome
  | failure : SendOutcome
deriving DecidableEq

/-- The compose-box state touched by `handleSendMessage`: the input text,
the reply draft, and the hook's sending flag. -/
structure ChatComposeState where
  chatInput : String
  replyingTo : Option ReceivedMsg
  isSending : Bool

/-- `handleSendMessage` (lines 294-329) as a function of the channel
outcome: guard on non-empty trimmed input and the sending lock; the
payload is built, serialized and passed to `send`, and only a successful
resolution reaches the state-clearing statements after the `await` — a
rejection aborts the async function before them. Returns the new state
and the wire string handed to `send` (none when the guard rejects). -/
def handleSendMessage (s : ChatComposeState) (outcome : SendOutcome) :
    ChatComposeState × Option String :=
  if !(jsTrim s.chatInput).isEmpty && !s.isSending then
    let payload := buildPayload s.chatInput s.replyingTo
    let wire := encodePayload payload
    match outcome with
    | SendOutcome.success => ({ s with chatInput := "", replyingTo := none }, some wire)
    | SendOutcome.failure => (s, some wire)
  else (s, none)

/-- **C10**: Send atomicity — if the channel send rejects, the chat input
and the reply draft are both unchanged (no partial update); they are
cleared exactly when the send resolves successfully, in which case the
serialized payload was handed to the channel; and a guard rejection
(empty input or the sending lock) changes nothing and sends nothing. -/
theorem send_atomicity (s : ChatComposeState) (outcome : SendOutcome) :
    (handleSendMessage s SendOutcome.failure).1 = s
    ∧ ((jsTrim s.chatInput).isEmpty = false → s.isSending = false →
        (handleSendMessage s SendOutcome.success).1.chatInput = ""
        ∧ (handleSendMessage s SendOutcome.success).1.replyingTo = none
        ∧ (handleSendMessage s SendOutcome.success).2
            = some (encodePayload (buildPayload s.chatInput s.replyingTo)))
    ∧ ((jsTrim s.chatInput).isEmpty = true ∨ s.isSending = true →
        handleSendMessage s outcome = (s, none)) := by
  refine ⟨?_, ?_, ?_⟩
  · unfold handleSendMessage
    by_cases hg : (!(jsTrim s.chatInput).isEmpty && !s.isSending) = true
    · rw [if_pos hg]
    · rw [if_neg hg]
  · intro h1 h2
    unfold handleSendMessage
    rw [if_pos (by rw [h1, h2]; rfl)]
    exact ⟨rfl, rfl, rfl⟩
  · intro h
    unfold handleSendMessage
    rw [if_neg (by rcases h with h | h <;> simp [h])]

/-- Witness for C10: a successful send of "hi" clears the input, while a
rejected send leaves the state untouched. -/
theorem send_atomicity_witness :
    (handleSendMessage { chatInput := "hi", replyingTo := none, isSending := false }
      SendOutcome.success).1.chatInput = ""
    ∧ (handleSendMessage { chatInput := "hi", replyingTo := none, isSending := false }
      SendOutcome.failure).1
        = { chatInput := "hi", replyingTo := none, isSending := false } :=
  ⟨((send_atomicity { chatInput := "hi", replyingTo := none, isSending := false }
      SendOutcome.success).2.1 rfl rfl).1,
   (send_atomicity { chatInput := "hi", replyingTo := none, isSending := false }
      SendOutcome.failure).1⟩

end WatchParty
